import Mathlib

/-!
Shallow embedding of the Structural Analysis & Conversion-Validation
Subsystem of the Code-Conversion repository, together with theorems
settling the frozen claims about it.

Modelling conventions:
* File contents are Lean `String`s; byte offsets coincide with character
  indices (ASCII assumption, matching how the Python code slices `str`
  values by tree-sitter byte offsets).
* Python `float` literals 0.1, 0.3, 0.5, 3.0 are modelled as exact
  rationals; for the count magnitudes involved the comparisons agree.
* External black boxes (the OpenAI call, Python's `ast` module, `re`
  regular-expression matching, the tree-sitter parser) are modelled as
  explicit parameters/oracles; everything the repository itself computes
  is translated directly from the source.
-/

/-- Python `pat in s` membership test on character lists: `listIsPrefix`
checks whether the first list is a prefix of the second. -/
def listIsPrefix : List Char → List Char → Bool
  | [], _ => true
  | _ :: _, [] => false
  | p :: ps, c :: cs => p == c && listIsPrefix ps cs

/-- Scan for an occurrence of `pat` anywhere in `s` (Python `pat in s`). -/
def listContainsSub (pat : List Char) : List Char → Bool
  | [] => listIsPrefix pat []
  | c :: rest => listIsPrefix pat (c :: rest) || listContainsSub pat rest

/-- Python `pat in s` for strings. -/
def strContains (s pat : String) : Bool :=
  listContainsSub pat.data s.data

/-- Fuel-driven scanner for Python `s.count(pat)`: counts non-overlapping
occurrences left to right, jumping over each match. -/
def countSubAux (pat : List Char) : Nat → List Char → Nat
  | 0, _ => 0
  | _, [] => 0
  | fuel + 1, c :: rest =>
    if listIsPrefix pat (c :: rest) then
      1 + countSubAux pat fuel ((c :: rest).drop pat.length)
    else
      countSubAux pat fuel rest

/-- Python `s.count(pat)` for a non-empty pattern. -/
def strCount (s pat : String) : Nat :=
  countSubAux pat.data s.data.length s.data

/-- Python `s.lower()` (ASCII). -/
def strLower (s : String) : String :=
  String.mk (s.data.map Char.toLower)

/-- Python `s[a:b]` character/byte slicing. -/
def byteSlice (s : String) (a b : Nat) : String :=
  String.mk ((s.data.drop a).take (b - a))

/-- Python `s.split('\n')` on character lists: always returns at least
one (possibly empty) piece. -/
def splitOnNl : List Char → List (List Char)
  | [] => [[]]
  | c :: rest =>
    if c = '\n' then [] :: splitOnNl rest
    else
      match splitOnNl rest with
      | [] => [[c]]
      | r :: rs => (c :: r) :: rs

/-- Python `s.split('\n')` for strings. -/
def pySplit (s : String) : List String :=
  (splitOnNl s.data).map String.mk

/-- Python `"\n".join(lines)`. -/
def joinLines : List String → String
  | [] => ""
  | [s] => s
  | s :: rest => s ++ "\n" ++ joinLines rest

/-- Python `s.strip()` (ASCII whitespace). -/
def pyStrip (s : String) : String :=
  String.mk (((s.data.dropWhile Char.isWhitespace).reverse.dropWhile
    Char.isWhitespace).reverse)

/-- Python `s.splitlines()` for `\n`-separated text: like splitting on
newline but a trailing newline produces no final empty entry, and the
empty string yields no lines. -/
def splitlines (s : String) : List String :=
  if s = "" then []
  else
    let parts := pySplit s
    if parts.getLast? = some "" then parts.dropLast else parts

/-- A single validator verdict: the `{name, passed, details}` dict every
strategy returns. -/
structure VResult where
  name : String
  passed : Bool
  details : String
deriving DecidableEq, Repr

instance : Inhabited VResult := ⟨⟨"", false, ""⟩⟩

/-- Outcome of the judging-model call in `LLMValidator.validate`:
either the API call succeeded (with the message content, which the
OpenAI client types as optional), or it raised an exception rendered
as the message string `e`. -/
inductive LLMOutcome where
  | success (content : Option String)
  | apiError (e : String)

namespace LLMValidator

/-- `LLMValidator.validate`, lines 80-114 of
`app/validation/llm_validator.py`, as a function of the model-call
outcome: keyword heuristic on a non-null response, fail on a null
response, fail-open pass on an exception. -/
def validate (outcome : LLMOutcome) : VResult :=
  match outcome with
  | .success (some result) =>
    let result_lower := strLower result
    let passed :=
      if strContains result_lower "pass" && !strContains result_lower "fail" then
        true
      else if strContains result_lower "fail" then
        false
      else
        true
    ⟨"LLMValidator", passed, result⟩
  | .success none => ⟨"LLMValidator", false, "No response from LLM."⟩
  | .apiError e =>
    ⟨"LLMValidator", true, "LLM validation error: " ++ e ++ ". Defaulting to PASS."⟩

end LLMValidator

/-- `suffix[1:].lower() if suffix else "unknown"` — the language tag the
validation layer derives from a `Path.suffix` value such as `".py"`. -/
def langOf (suffix : String) : String :=
  if suffix = "" then "unknown" else strLower (suffix.drop 1)

/-- The "not applicable / defaulted to pass" signature phrases of
`ValidationController.run_all`. -/
def crossLangKeywords : List String :=
  ["only supports python", "cross-language", "language-specific", "defaulting to pass"]

/-- `any(keyword in details for keyword in [...])` over the lowercased
detail text. -/
def matchesCrossLangSignature (details : String) : Bool :=
  crossLangKeywords.any (fun k => strContains (strLower details) k)

/-- The per-verdict leniency override of `run_all` (lines 40-54): in a
lenient cross-language session a failing verdict whose details carry a
signature phrase is flipped to pass and annotated. -/
def adjustVerdict (is_cross_language strict_mode : Bool) (r : VResult) : VResult :=
  if is_cross_language && !strict_mode && !r.passed
      && matchesCrossLangSignature r.details then
    { r with passed := true, details := "Cross-language conversion: " ++ r.details }
  else r

/-- The dict returned by `ValidationController.run_all`. -/
structure ValidationReport where
  overall_passed : Bool
  results : List VResult
  matrix : List VResult
  is_cross_language : Bool
  strict_mode : Bool
deriving Repr

namespace ValidationController

/-- `ValidationController.run_all`, lines 22-78 of
`app/validation/validation_controller.py`, as a function of the two
files' suffixes and of the raw verdicts produced (in order) by the
validators that actually ran. -/
def run_all (strict_mode : Bool) (origSuffix convSuffix : String)
    (raw : List VResult) : ValidationReport :=
  let source_lang := langOf origSuffix
  let target_lang := langOf convSuffix
  let is_cross_language : Bool := source_lang ≠ target_lang
  let results := raw.map (adjustVerdict is_cross_language strict_mode)
  let overall_passed : Bool :=
    if is_cross_language && !strict_mode then
      2 ≤ (results.filter (fun r => r.passed)).length
    else
      results.all (fun r => r.passed)
  { overall_passed := overall_passed
    results := results
    matrix := results.map (fun r => ⟨r.name, r.passed, r.details⟩)
    is_cross_language := is_cross_language
    strict_mode := strict_mode }

end ValidationController

/-- The complexity-metric dict computed by
`PerformanceAnalyzer._analyze_complexity`. -/
structure ComplexityMetrics where
  total_lines : Nat
  non_empty_lines : Nat
  functions : Nat
  classes : Nat
  control_structures : Nat
  complexity_score : ℚ
deriving DecidableEq, Repr

namespace PerformanceAnalyzer

/-- `PerformanceAnalyzer._analyze_complexity`, lines 95-132 of
`app/validation/performance_analyzer.py`. The weighted score uses the
exact rationals 2, 3, 1 and 1/10 for the Python weights. -/
def analyze_complexity (code language : String) : ComplexityMetrics :=
  let lines := pySplit code
  let non_empty_lines := (lines.filter (fun l => pyStrip l ≠ "")).length
  let functions :=
    if language = "py" then strCount code "def "
    else if language = "java" then
      strCount code "public " + strCount code "private " + strCount code "protected "
    else if language = "js" then strCount code "function " + strCount code "=>"
    else 0
  let classes := strCount code "class "
  let control_structures :=
    (["if ", "for ", "while ", "try ", "switch ", "case "].map
      (fun k => strCount code k)).sum
  { total_lines := lines.length
    non_empty_lines := non_empty_lines
    functions := functions
    classes := classes
    control_structures := control_structures
    complexity_score :=
      (functions : ℚ) * 2 + (classes : ℚ) * 3 + (control_structures : ℚ) * 1
        + (non_empty_lines : ℚ) * (1 / 10) }

/-- `PerformanceAnalyzer._compare_complexity_metrics`, lines 134-169 of
`app/validation/performance_analyzer.py`: the ordered chain of ratio
checks, returning `(passed, details)`. -/
def compare_complexity_metrics (original converted : ComplexityMetrics)
    (source_lang target_lang : String) : Bool × String :=
  if 0 < original.functions
      ∧ (converted.functions : ℚ) / (original.functions : ℚ) < 1 / 2 then
    (false, "Too many functions missing in " ++ target_lang ++ " conversion")
  else if 0 < original.classes ∧ converted.classes = 0 then
    (false, "Classes missing in " ++ target_lang ++ " conversion")
  else if 0 < original.control_structures
      ∧ (converted.control_structures : ℚ) / (original.control_structures : ℚ) < 3 / 10
      ∧ source_lang = target_lang then
    (false, "Too many control structures missing in " ++ target_lang ++ " conversion")
  else
    if (if 0 < original.complexity_score then
          converted.complexity_score / original.complexity_score
        else 1) < 3 / 10 then
      (false, "Code too simplified in " ++ target_lang ++ " conversion")
    else if 3 < (if 0 < original.complexity_score then
          converted.complexity_score / original.complexity_score
        else 1) then
      (false, "Code overly complex in " ++ target_lang ++ " conversion")
    else
      (true, "Cross-language conversion from " ++ source_lang ++ " to "
        ++ target_lang ++ " maintains appropriate complexity")

/-- `PerformanceAnalyzer._validate_cross_language_complexity`, lines
67-93: analyze both files and compare (the `except` arm is unreachable
in this model since analysis and comparison are total). -/
def validate_cross_language_complexity (origCode convCode source_lang target_lang : String) :
    VResult :=
  let original_metrics := analyze_complexity origCode source_lang
  let converted_metrics := analyze_complexity convCode target_lang
  let pd := compare_complexity_metrics original_metrics converted_metrics
    source_lang target_lang
  ⟨"PerformanceAnalyzer", pd.1, pd.2⟩

end PerformanceAnalyzer

/-- The structural-element dict of
`SemanticValidator._extract_structural_elements`. -/
structure StructuralElements where
  functions : List String
  classes : List String
  imports : List String
  vars : List String          -- the dict key "variables" (a reserved word in Lean)
  control_structures : List String
deriving DecidableEq, Repr

/-- Oracle for Python `re.findall(pattern, code)`: the repository's
regular-expression engine is external, so matching is a parameter; the
extraction function below feeds it the exact pattern strings of the
source. -/
structure RegexFindall where
  findall : String → String → List String

namespace SemanticValidator

/-- `SemanticValidator._extract_structural_elements`, lines 76-110 of
`app/validation/semantic_validator.py`: per-language regex scans for
`py`, `java` and `js`, and the untouched all-empty dict for every other
language tag. -/
def extract_structural_elements (re : RegexFindall) (code language : String) :
    StructuralElements :=
  if language = "py" then
    { functions := re.findall "def\\s+(\\w+)\\s*\\(" code
      classes := re.findall "class\\s+(\\w+)" code
      imports := re.findall "import\\s+(\\w+)" code ++ re.findall "from\\s+(\\w+)" code
      vars := re.findall "(\\w+)\\s*=" code
      control_structures := re.findall "(if|for|while|try|with)\\s+" code }
  else if language = "java" then
    { functions := re.findall "(?:public|private|protected)?\\s*(?:static\\s+)?(?:final\\s+)?(?:void|int|String|boolean|double|float|long|short|byte|char)\\s+(\\w+)\\s*\\(" code
      classes := re.findall "class\\s+(\\w+)" code
      imports := re.findall "import\\s+([^;]+)" code
      vars := re.findall "(?:public|private|protected)?\\s*(?:static\\s+)?(?:final\\s+)?(?:int|String|boolean|double|float|long|short|byte|char)\\s+(\\w+)" code
      control_structures := re.findall "(if|for|while|try|switch)\\s*\\(" code }
  else if language = "js" then
    { functions := re.findall "function\\s+(\\w+)|(\\w+)\\s*[:=]\\s*function|(\\w+)\\s*[:=]\\s*\\([^)]*\\)\\s*=>" code
      classes := re.findall "class\\s+(\\w+)" code
      imports := re.findall "import\\s+([^;]+)" code
      vars := re.findall "(?:const|let|var)\\s+(\\w+)" code
      control_structures := re.findall "(if|for|while|try|switch)\\s*\\(" code
        ++ re.findall "(if|for|while|try|switch)\\s+" code }
  else
    { functions := [], classes := [], imports := [], vars := [], control_structures := [] }

/-- `SemanticValidator._compare_structural_elements`, lines 112-139:
fail on vanished functions or classes; a vanished control structure
fails only when the language tags are identical; pass otherwise. -/
def compare_structural_elements (original converted : StructuralElements)
    (source_lang target_lang : String) : Bool × String :=
  if original.functions ≠ [] ∧ converted.functions = [] then
    (false, "Functions missing in " ++ target_lang ++ " conversion")
  else if original.classes ≠ [] ∧ converted.classes = [] then
    (false, "Classes missing in " ++ target_lang ++ " conversion")
  else if original.control_structures ≠ [] ∧ converted.control_structures = []
      ∧ source_lang = target_lang then
    (false, "Control structures missing in " ++ target_lang ++ " conversion")
  else
    (true, "Cross-language conversion from " ++ source_lang ++ " to "
      ++ target_lang ++ " preserves key structural elements")

/-- `SemanticValidator._validate_cross_language`, lines 46-74: extract
elements from both files and compare (extraction and comparison are
total in this model, so the fail-open `except` arm is unreachable). -/
def validate_cross_language (re : RegexFindall)
    (origCode convCode source_lang target_lang : String) : VResult :=
  let original_elements := extract_structural_elements re origCode source_lang
  let converted_elements := extract_structural_elements re convCode target_lang
  let pd := compare_structural_elements original_elements converted_elements
    source_lang target_lang
  ⟨"SemanticValidator", pd.1, pd.2⟩

/-- `SemanticValidator._validate_python_to_python`, lines 23-44, as a
function of oracles for Python's `ast.parse` (which may raise, modelled
by `Except`) and `ast.dump` with fields and attributes suppressed. -/
def validate_python_to_python {α : Type} (parse : String → Except String α)
    (dump : α → String) (origCode convCode : String) : VResult :=
  match parse origCode with
  | .error e => ⟨"SemanticValidator", false, "Error during AST comparison: " ++ e⟩
  | .ok original_ast =>
    match parse convCode with
    | .error e => ⟨"SemanticValidator", false, "Error during AST comparison: " ++ e⟩
    | .ok converted_ast =>
      if dump original_ast = dump converted_ast then
        ⟨"SemanticValidator", true, "ASTs match."⟩
      else
        ⟨"SemanticValidator", false, "ASTs differ structurally."⟩

/-- `SemanticValidator.validate`, lines 8-21: dispatch on the two
suffix-derived language tags — the full-fidelity AST path for
Python-to-Python pairs, the structural-element path otherwise. -/
def validate {α : Type} (parse : String → Except String α) (dump : α → String)
    (re : RegexFindall) (origSuffix origCode convSuffix convCode : String) : VResult :=
  let source_lang := langOf origSuffix
  let target_lang := langOf convSuffix
  if source_lang = target_lang ∧ source_lang = "py" then
    validate_python_to_python parse dump origCode convCode
  else
    validate_cross_language re origCode convCode source_lang target_lang

end SemanticValidator

/-!
### Tree-sitter syntax-tree model

The Parse Provider is external; its output contract (node category, byte
span, row span, named-child lookup, ordered children) is modelled by the
mutual inductive below. `TSNodeList` is a bespoke list so that mutual
structural recursion and induction over the tree stay elementary.
-/

mutual
inductive TSNode : Type where
  | mk : String → Nat → Nat → Nat → Nat → Option String → TSNodeList → TSNode
deriving DecidableEq
inductive TSNodeList : Type where
  | nil : TSNodeList
  | cons : TSNode → TSNodeList → TSNodeList
deriving DecidableEq
end

/-- `node.type`. -/
def TSNode.kind : TSNode → String
  | .mk t _ _ _ _ _ _ => t

/-- `node.start_byte`. -/
def TSNode.start_byte : TSNode → Nat
  | .mk _ s _ _ _ _ _ => s

/-- `node.end_byte`. -/
def TSNode.end_byte : TSNode → Nat
  | .mk _ _ e _ _ _ _ => e

/-- `node.start_point[0]`. -/
def TSNode.start_row : TSNode → Nat
  | .mk _ _ _ r _ _ _ => r

/-- `node.end_point[0]`. -/
def TSNode.end_row : TSNode → Nat
  | .mk _ _ _ _ r _ _ => r

/-- The field label this node carries in its parent, if any. -/
def TSNode.fieldName : TSNode → Option String
  | .mk _ _ _ _ _ f _ => f

/-- `node.children`. -/
def TSNode.children : TSNode → TSNodeList
  | .mk _ _ _ _ _ _ cs => cs

/-- `node.text.decode('utf-8')`: the source bytes the node covers. -/
def TSNode.text (code : String) (n : TSNode) : String :=
  byteSlice code n.start_byte n.end_byte

/-- `node.child_by_field_name(fname)`. -/
def TSNodeList.findField (fname : String) : TSNodeList → Option TSNode
  | .nil => none
  | .cons c cs => if c.fieldName = some fname then some c else findField fname cs

/-- `node.child_by_field_name`. -/
def TSNode.child_by_field_name (n : TSNode) (fname : String) : Option TSNode :=
  n.children.findField fname

/-- First child of the given node category, as the `for child in
node.children: if child.type == t: ...; break` loops use it. -/
def TSNodeList.findKind (t : String) : TSNodeList → Option TSNode
  | .nil => none
  | .cons c cs => if c.kind = t then some c else findKind t cs

/-- The `target_types` table of `extract_segments_from_tree` (lines
51-57 of `app/analysis/segmentation_engine.py`). -/
def segmentTargetTypes (language : String) : List String :=
  if language = "python" then ["function_definition", "class_definition"]
  else if language = "javascript" then
    ["function_declaration", "function_expression", "class_declaration", "method_definition"]
  else if language = "java" then
    ["method_declaration", "class_declaration", "constructor_declaration"]
  else if language = "cpp" ∨ language = "c++" then
    ["function_definition", "class_specifier"]
  else []

/-- The name-extraction logic of `extract_segments_from_tree` (lines
62-90): named-child lookup for Python/JavaScript/Java, child-kind
scans for C++, `"<anonymous>"` otherwise. -/
def extractSegmentName (code language : String) (n : TSNode) : String :=
  if language = "python" ∨ language = "javascript" ∨ language = "java" then
    match n.child_by_field_name "name" with
    | some nameNode => nameNode.text code
    | none => "<anonymous>"
  else if language = "cpp" ∨ language = "c++" then
    if n.kind = "class_specifier" then
      match n.children.findKind "type_identifier" with
      | some c => c.text code
      | none => "<anonymous>"
    else if n.kind = "function_definition" then
      match n.children.findKind "function_declarator" with
      | some d =>
        match d.children.findKind "identifier" with
        | some g => g.text code
        | none => "<anonymous>"
      | none => "<anonymous>"
    else "<anonymous>"
  else "<anonymous>"

/-- One element of the list `segment_code` returns. -/
structure Segment where
  node_type : String
  name : String
  code : String
  start_byte : Nat
  end_byte : Nat
  start_line : Nat
  end_line : Nat
deriving DecidableEq, Repr

instance : Inhabited Segment := ⟨⟨"", "", "", 0, 0, 0, 0⟩⟩

mutual
/-- `walk_node` of `extract_segments_from_tree` (lines 49-111 of
`app/analysis/segmentation_engine.py`): emit a segment when the node
kind is in the allow-list, then recurse into all children (pre-order). -/
def walkSegments (code language : String) : TSNode → List Segment
  | .mk t sb eb sr er f cs =>
    (if (segmentTargetTypes language).contains t then
      [{ node_type := t
         name := extractSegmentName code language (.mk t sb eb sr er f cs)
         code := byteSlice code sb eb
         start_byte := sb
         end_byte := eb
         start_line := sr
         end_line := er }]
    else [])
      ++ walkSegmentsList code language cs
/-- The child loop of `walk_node`. -/
def walkSegmentsList (code language : String) : TSNodeList → List Segment
  | .nil => []
  | .cons c rest => walkSegments code language c ++ walkSegmentsList code language rest
end

/-- `extract_segments_from_tree(tree, code, language)`, starting from the
root node. -/
def extract_segments_from_tree (code language : String) (root : TSNode) : List Segment :=
  walkSegments code language root

/-- The `context_types` table of `extract_context_from_tree` (lines
53-58 of `app/analysis/context_extractor.py`); note it has no `"c++"`
key, only `"cpp"`. -/
def contextTypes (language : String) : List String :=
  if language = "python" then
    ["import_statement", "import_from_statement", "function_definition", "class_definition"]
  else if language = "javascript" then
    ["import_statement", "function_declaration", "class_declaration"]
  else if language = "java" then
    ["import_declaration", "class_declaration", "method_declaration"]
  else if language = "cpp" then
    ["preproc_include", "class_specifier", "function_definition"]
  else []

mutual
/-- The byte spans of the nodes `extract_context_from_tree` collects, in
traversal order: kind in the allow-list and `end_byte < segment_start`. -/
def contextSnips (language : String) (segment_start : Nat) : TSNode → List (Nat × Nat)
  | .mk t sb eb _ _ _ cs =>
    (if (contextTypes language).contains t && decide (eb < segment_start) then
      [(sb, eb)]
    else [])
      ++ contextSnipsList language segment_start cs
/-- The child loop of the context walk. -/
def contextSnipsList (language : String) (segment_start : Nat) : TSNodeList → List (Nat × Nat)
  | .nil => []
  | .cons c rest =>
    contextSnips language segment_start c ++ contextSnipsList language segment_start rest
end

/-- `extract_context_from_tree(tree, code, segment_start, language)`
(lines 47-74): join the collected snippets with newlines and strip. -/
def extract_context_from_tree (code language : String) (segment_start : Nat)
    (root : TSNode) : String :=
  pyStrip (joinLines
    ((contextSnips language segment_start root).map (fun p => byteSlice code p.1 p.2)))

/-- Every top-level span of the list lies within `[lo, hi]`. -/
def listWithin (lo hi : Nat) : TSNodeList → Bool
  | .nil => true
  | .cons c cs => decide (lo ≤ c.start_byte) && decide (c.end_byte ≤ hi) && listWithin lo hi cs

/-- Every node of the list starts at or after byte `e`. -/
def listAllAfter (e : Nat) : TSNodeList → Bool
  | .nil => true
  | .cons c cs => decide (e ≤ c.start_byte) && listAllAfter e cs

/-- Sibling spans are sorted and mutually disjoint: each node ends
before every later sibling starts. -/
def listSorted : TSNodeList → Bool
  | .nil => true
  | .cons c cs => listAllAfter c.end_byte cs && listSorted cs

mutual
/-- Well-formedness of a tree-sitter tree, as guaranteed by the parser:
spans are ordered (`start_byte ≤ end_byte`), children lie within their
parent's span, and children are position-sorted and non-overlapping. -/
def nodeWF : TSNode → Bool
  | .mk _ sb eb _ _ _ cs =>
    decide (sb ≤ eb) && listWithin sb eb cs && listSorted cs && listWF cs
/-- `nodeWF` for every node of a list. -/
def listWF : TSNodeList → Bool
  | .nil => true
  | .cons c cs => nodeWF c && listWF cs
end

/-!
### Context extractor
-/

/-- What `extract_python_context_ast` reads off each node of
`ast.walk(tree)` (an oracle for Python's `ast` module): whether the node
is one of `Import`/`ImportFrom`/`FunctionDef`/`ClassDef`/`Assign`, its
1-based `lineno`, and its optional `end_lineno`. -/
structure PyAstNode where
  isContextKind : Bool
  lineno : Nat
  end_lineno : Option Nat
deriving DecidableEq, Repr

/-- The 0-based line ranges `[lineno - 1, end_lineno)` collected by
`extract_python_context_ast` (lines 87-91 of
`app/analysis/context_extractor.py`): context-kind nodes whose
`end_lineno` exists and is less than `segment_start`. -/
def pyContextLineRanges (segment_start : Nat) (nodes : List PyAstNode) : List (Nat × Nat) :=
  (nodes.filter (fun n =>
      n.isContextKind &&
        match n.end_lineno with
        | some el => decide (el < segment_start)
        | none => false)).map
    (fun n => (n.lineno - 1, n.end_lineno.getD 0))

/-- `extract_python_context_ast(code, segment_start)` (lines 76-93), as
a function of the walked AST nodes: gather `code_lines[lineno-1 :
end_lineno]` for each collected node, join and strip. -/
def extract_python_context_ast (code : String) (segment_start : Nat)
    (nodes : List PyAstNode) : String :=
  let code_lines := splitlines code
  let context_lines :=
    (pyContextLineRanges segment_start nodes).flatMap
      (fun p => (code_lines.drop p.1).take (p.2 - p.1))
  pyStrip (joinLines context_lines)

/-- The matches `extract_javascript_context_regex` keeps (lines
103-109): import-pattern matches then function/class-pattern matches,
each filtered to `match.start() < segment_start`. The two
`re.finditer` scans are oracles yielding `(start, text)` pairs. -/
def jsKeptMatches (segment_start : Nat)
    (importMatches funcMatches : List (Nat × String)) : List (Nat × String) :=
  importMatches.filter (fun m => decide (m.1 < segment_start))
    ++ funcMatches.filter (fun m => decide (m.1 < segment_start))

/-- `extract_javascript_context_regex(code, segment_start)` (lines
95-111): join the kept matches' texts and strip. -/
def extract_javascript_context_regex (segment_start : Nat)
    (importMatches funcMatches : List (Nat × String)) : String :=
  pyStrip (joinLines
    ((jsKeptMatches segment_start importMatches funcMatches).map (fun m => m.2)))

/-- The universal fallback's kept lines, `code_lines[:segment_start]`
(line 39 of `app/analysis/context_extractor.py`). -/
def universalContextLines (code : String) (segment_start : Nat) : List String :=
  (splitlines code).take segment_start

/-- The universal fallback's `context_code`:
`"\n".join(code_lines[:segment_start]).strip()`. -/
def universalContext (code : String) (segment_start : Nat) : String :=
  pyStrip (joinLines (universalContextLines code segment_start))

/-- The dict `extract_context` returns: `context_code` and
`source_lines = [0, len(context_code.splitlines())]`. -/
structure ContextResult where
  context_code : String
  source_lines : Nat × Nat
deriving DecidableEq, Repr

/-- Outcome of `parse_code(code, ts_language)`: a syntax tree, or the
exception the tree-sitter layer raised. -/
inductive ParseOutcome where
  | ok (root : TSNode)
  | err (msg : String)

/-- Package a context string the way `extract_context` does. -/
def mkContextResult (context_code : String) : ContextResult :=
  ⟨context_code, (0, (splitlines context_code).length)⟩

/-- `extract_context(file_metadata, segment_start)` (lines 6-45 of
`app/analysis/context_extractor.py`): try the tree path for tree-sitter
languages (used only when parsing succeeded and the result is
non-empty), then the Python AST fallback, the JavaScript regex
fallback, or the universal line-based fallback. The tree, the walked
Python AST nodes and the JavaScript regex matches are oracle inputs
standing for the external parsers. -/
def extract_context (language code : String) (segment_start : Nat)
    (parsed : ParseOutcome) (pyNodes : List PyAstNode)
    (importMatches funcMatches : List (Nat × String)) : ContextResult :=
  let treeResult : Option String :=
    if ["python", "javascript", "java", "cpp", "c++"].contains language then
      match parsed with
      | .ok root =>
        let context_code := extract_context_from_tree code language segment_start root
        if context_code ≠ "" then some context_code else none
      | .err _ => none
    else none
  match treeResult with
  | some context_code => mkContextResult context_code
  | none =>
    if language = "python" then
      mkContextResult (extract_python_context_ast code segment_start pyNodes)
    else if language = "javascript" then
      mkContextResult (extract_javascript_context_regex segment_start importMatches funcMatches)
    else
      mkContextResult (universalContext code segment_start)

/-!
### Claim theorems
-/

/-- C6: for every non-null free-text judge response, the derived verdict
follows the ordered keyword heuristic — a "pass" indicator without a
"fail" indicator passes; a "fail" indicator fails; neither indicator
defaults to pass. -/
theorem llm_keyword_heuristic (s : String) :
    (strContains (strLower s) "pass" = true → strContains (strLower s) "fail" = false →
      (LLMValidator.validate (.success (some s))).passed = true)
  ∧ (strContains (strLower s) "fail" = true →
      (LLMValidator.validate (.success (some s))).passed = false)
  ∧ (strContains (strLower s) "pass" = false → strContains (strLower s) "fail" = false →
      (LLMValidator.validate (.success (some s))).passed = true) := by
  refine ⟨fun h1 h2 => ?_, fun h1 => ?_, fun h1 h2 => ?_⟩
  · simp [LLMValidator.validate, h1, h2]
  · simp [LLMValidator.validate, h1]
  · simp [LLMValidator.validate, h1, h2]

/-- Witness for `llm_keyword_heuristic`: the three heuristic branches at
concrete judge responses. -/
theorem llm_keyword_heuristic_check :
    (LLMValidator.validate (.success (some "Overall assessment: PASS"))).passed = true
  ∧ (LLMValidator.validate (.success (some "Overall assessment: FAIL"))).passed = false
  ∧ (LLMValidator.validate (.success (some "inconclusive review"))).passed = true :=
  ⟨(llm_keyword_heuristic "Overall assessment: PASS").1 (by decide) (by decide),
   (llm_keyword_heuristic "Overall assessment: FAIL").2.1 (by decide),
   (llm_keyword_heuristic "inconclusive review").2.2 (by decide) (by decide)⟩

/-- C7: when the judging-model call raises, the strategy catches the
exception and returns a passing verdict whose details explain the
error, so the failure never reaches the caller (the embedding is a
total function into verdicts). -/
theorem llm_api_failure_fail_open (e : String) :
    (LLMValidator.validate (.apiError e)).passed = true
  ∧ (LLMValidator.validate (.apiError e)).details
      = "LLM validation error: " ++ e ++ ". Defaulting to PASS." :=
  ⟨rfl, rfl⟩

/-- C10: a successful call whose message content is null yields a
failing verdict with detail "No response from LLM." — the exception to
the strategy's fail-open bias. -/
theorem llm_null_response_fails :
    LLMValidator.validate (.success none)
      = ⟨"LLMValidator", false, "No response from LLM."⟩ :=
  rfl

/-- C1: with all three strategies producing verdicts, a lenient
cross-language run passes overall iff at least 2 of the 3 verdicts
pass, and any other run (strict mode, or same-language) passes overall
iff every verdict passes. -/
theorem run_all_aggregation (strict_mode : Bool) (origSuffix convSuffix : String)
    (raw : List VResult) (hlen : raw.length = 3) :
    (ValidationController.run_all strict_mode origSuffix convSuffix raw).results.length = 3
  ∧ ((ValidationController.run_all strict_mode origSuffix convSuffix raw).is_cross_language = true →
      strict_mode = false →
      ((ValidationController.run_all strict_mode origSuffix convSuffix raw).overall_passed = true ↔
        2 ≤ (((ValidationController.run_all strict_mode origSuffix convSuffix raw).results.filter
          (fun r => r.passed)).length)))
  ∧ ((ValidationController.run_all strict_mode origSuffix convSuffix raw).is_cross_language = false
        ∨ strict_mode = true →
      ((ValidationController.run_all strict_mode origSuffix convSuffix raw).overall_passed = true ↔
        ∀ r ∈ (ValidationController.run_all strict_mode origSuffix convSuffix raw).results,
          r.passed = true)) := by
  cases hc : (decide (langOf origSuffix ≠ langOf convSuffix)) <;> cases strict_mode <;>
    simp [ValidationController.run_all, hc, hlen, List.all_eq_true]

/-- Witness for `run_all_aggregation`: a lenient cross-language run with
two passing verdicts passes overall, and a strict run with one failing
verdict fails overall. -/
theorem run_all_aggregation_check :
    ((ValidationController.run_all false ".py" ".java"
        [⟨"LLMValidator", true, "ok"⟩, ⟨"SemanticValidator", true, "ok"⟩,
         ⟨"PerformanceAnalyzer", false, "slow"⟩]).overall_passed = true ↔
      2 ≤ (((ValidationController.run_all false ".py" ".java"
        [⟨"LLMValidator", true, "ok"⟩, ⟨"SemanticValidator", true, "ok"⟩,
         ⟨"PerformanceAnalyzer", false, "slow"⟩]).results.filter
          (fun r => r.passed)).length))
  ∧ ((ValidationController.run_all true ".py" ".py"
        [⟨"LLMValidator", true, "ok"⟩, ⟨"SemanticValidator", false, "bad"⟩,
         ⟨"PerformanceAnalyzer", true, "ok"⟩]).overall_passed = true ↔
      ∀ r ∈ (ValidationController.run_all true ".py" ".py"
        [⟨"LLMValidator", true, "ok"⟩, ⟨"SemanticValidator", false, "bad"⟩,
         ⟨"PerformanceAnalyzer", true, "ok"⟩]).results, r.passed = true) :=
  ⟨(run_all_aggregation false ".py" ".java" _ (by decide)).2.1 (by decide) rfl,
   (run_all_aggregation true ".py" ".py" _ (by decide)).2.2 (Or.inr rfl)⟩

/-- Indexing a mapped verdict list with a default: positional form of
`List.getD_map` specialised to the controller's verdict rewriting. -/
theorem results_getD_map (f : VResult → VResult) (l : List VResult) (i : Nat)
    (h : i < l.length) : (l.map f).getD i default = f (l.getD i default) := by
  induction l generalizing i with
  | nil => simp at h
  | cons x xs ih =>
    cases i with
    | zero => simp [List.getD]
    | succ n => simpa [List.getD] using ih n (by simpa using h)

/-- C8: in a lenient cross-language session the controller flips any
failing verdict whose detail text carries a known "not applicable /
defaulted to pass" signature to a pass, prefixing the detail with the
cross-language annotation; in same-language or strict-mode sessions
every verdict is passed through unchanged. -/
theorem run_all_leniency_override (strict_mode : Bool) (origSuffix convSuffix : String)
    (raw : List VResult) (i : Nat) (h : i < raw.length) :
    (ValidationController.run_all strict_mode origSuffix convSuffix raw).results.length
      = raw.length
  ∧ ((ValidationController.run_all strict_mode origSuffix convSuffix raw).is_cross_language = true →
      strict_mode = false →
      (raw.getD i default).passed = false →
      matchesCrossLangSignature (raw.getD i default).details = true →
      ((ValidationController.run_all strict_mode origSuffix convSuffix raw).results.getD i
          default).passed = true
      ∧ ((ValidationController.run_all strict_mode origSuffix convSuffix raw).results.getD i
          default).details
          = "Cross-language conversion: " ++ (raw.getD i default).details)
  ∧ ((ValidationController.run_all strict_mode origSuffix convSuffix raw).is_cross_language = false
        ∨ strict_mode = true →
      (ValidationController.run_all strict_mode origSuffix convSuffix raw).results.getD i default
        = raw.getD i default) := by
  have hres : (ValidationController.run_all strict_mode origSuffix convSuffix raw).results
      = raw.map (adjustVerdict (decide (langOf origSuffix ≠ langOf convSuffix)) strict_mode) :=
    rfl
  have hcross : (ValidationController.run_all strict_mode origSuffix convSuffix raw).is_cross_language
      = decide (langOf origSuffix ≠ langOf convSuffix) := rfl
  refine ⟨by simp [hres], ?_, ?_⟩
  · intro h1 h2 h3 h4
    rw [hcross] at h1
    rw [hres, results_getD_map _ _ _ h, h1, h2]
    unfold adjustVerdict
    rw [h3, h4]
    simp
  · intro h1
    rw [hres, results_getD_map _ _ _ h]
    unfold adjustVerdict
    rcases h1 with h1 | h1
    · rw [hcross] at h1
      rw [h1]
      simp
    · rw [h1]
      simp

/-- Witness for `run_all_leniency_override`: a failing structural
verdict carrying the "only supports python" signature is rescued in a
lenient cross-language run, and the same verdict is untouched in a
strict run. -/
theorem run_all_leniency_override_check :
    (((ValidationController.run_all false ".py" ".java"
        [⟨"SemanticValidator", false, "This validator only supports Python files."⟩]).results.getD
        0 default).passed = true
      ∧ ((ValidationController.run_all false ".py" ".java"
        [⟨"SemanticValidator", false, "This validator only supports Python files."⟩]).results.getD
        0 default).details
        = "Cross-language conversion: This validator only supports Python files.")
  ∧ ((ValidationController.run_all true ".py" ".java"
        [⟨"SemanticValidator", false, "This validator only supports Python files."⟩]).results.getD
        0 default
      = ⟨"SemanticValidator", false, "This validator only supports Python files."⟩) :=
  ⟨(run_all_leniency_override false ".py" ".java"
      [⟨"SemanticValidator", false, "This validator only supports Python files."⟩] 0
      (by decide)).2.1 (by decide) rfl (by decide) (by decide),
   (run_all_leniency_override true ".py" ".java"
      [⟨"SemanticValidator", false, "This validator only supports Python files."⟩] 0
      (by decide)).2.2 (Or.inr rfl)⟩

/-- The comparison chain of `_compare_complexity_metrics` fails exactly
when one of its four fail conditions holds. -/
theorem compare_complexity_fail_iff (original converted : ComplexityMetrics)
    (source_lang target_lang : String) :
    ((PerformanceAnalyzer.compare_complexity_metrics original converted source_lang
        target_lang).1 = false ↔
      (0 < original.functions
        ∧ (converted.functions : ℚ) / (original.functions : ℚ) < 1 / 2)
      ∨ (0 < original.classes ∧ converted.classes = 0)
      ∨ (0 < original.control_structures
        ∧ (converted.control_structures : ℚ) / (original.control_structures : ℚ) < 3 / 10
        ∧ source_lang = target_lang)
      ∨ ((if 0 < original.complexity_score
            then converted.complexity_score / original.complexity_score
            else 1) < 3 / 10
        ∨ 3 < (if 0 < original.complexity_score
            then converted.complexity_score / original.complexity_score
            else 1))) := by
  unfold PerformanceAnalyzer.compare_complexity_metrics
  by_cases hA : 0 < original.functions
      ∧ (converted.functions : ℚ) / (original.functions : ℚ) < 1 / 2
  · rw [if_pos hA]
    exact ⟨fun _ => Or.inl hA, fun _ => rfl⟩
  rw [if_neg hA]
  by_cases hB : 0 < original.classes ∧ converted.classes = 0
  · rw [if_pos hB]
    exact ⟨fun _ => Or.inr (Or.inl hB), fun _ => rfl⟩
  rw [if_neg hB]
  by_cases hC : 0 < original.control_structures
      ∧ (converted.control_structures : ℚ) / (original.control_structures : ℚ) < 3 / 10
      ∧ source_lang = target_lang
  · rw [if_pos hC]
    exact ⟨fun _ => Or.inr (Or.inr (Or.inl hC)), fun _ => rfl⟩
  rw [if_neg hC]
  by_cases hlo : (if 0 < original.complexity_score
      then converted.complexity_score / original.complexity_score else 1) < 3 / 10
  · rw [if_pos hlo]
    exact ⟨fun _ => Or.inr (Or.inr (Or.inr (Or.inl hlo))), fun _ => rfl⟩
  rw [if_neg hlo]
  by_cases hhi : 3 < (if 0 < original.complexity_score
      then converted.complexity_score / original.complexity_score else 1)
  · rw [if_pos hhi]
    exact ⟨fun _ => Or.inr (Or.inr (Or.inr (Or.inr hhi))), fun _ => rfl⟩
  rw [if_neg hhi]
  constructor
  · intro h
    exact absurd h (by simp)
  · rintro (h | h | h | h | h)
    · exact absurd h hA
    · exact absurd h hB
    · exact absurd h hC
    · exact absurd h hlo
    · exact absurd h hhi

/-- C5: a cross-language-branch complexity run fails exactly when one of
the four documented ratio conditions holds — converted functions fewer
than half the original's (original non-empty), classes vanished,
control structures shrunk below the 0.3 ratio with identical language
tags, or a complexity-score ratio outside [0.3, 3] (the ratio being
defined as 1 when the original score is 0) — and passes otherwise. -/
theorem complexity_fail_conditions (origCode convCode source_lang target_lang : String) :
    ((PerformanceAnalyzer.validate_cross_language_complexity origCode convCode source_lang
        target_lang).passed = false ↔
      (0 < (PerformanceAnalyzer.analyze_complexity origCode source_lang).functions
        ∧ ((PerformanceAnalyzer.analyze_complexity convCode target_lang).functions : ℚ)
            / ((PerformanceAnalyzer.analyze_complexity origCode source_lang).functions : ℚ)
            < 1 / 2)
      ∨ (0 < (PerformanceAnalyzer.analyze_complexity origCode source_lang).classes
        ∧ (PerformanceAnalyzer.analyze_complexity convCode target_lang).classes = 0)
      ∨ (0 < (PerformanceAnalyzer.analyze_complexity origCode source_lang).control_structures
        ∧ ((PerformanceAnalyzer.analyze_complexity convCode target_lang).control_structures : ℚ)
            / ((PerformanceAnalyzer.analyze_complexity origCode
                source_lang).control_structures : ℚ) < 3 / 10
        ∧ source_lang = target_lang)
      ∨ ((if 0 < (PerformanceAnalyzer.analyze_complexity origCode source_lang).complexity_score
            then (PerformanceAnalyzer.analyze_complexity convCode target_lang).complexity_score
              / (PerformanceAnalyzer.analyze_complexity origCode source_lang).complexity_score
            else 1) < 3 / 10
        ∨ 3 < (if 0 < (PerformanceAnalyzer.analyze_complexity origCode
                source_lang).complexity_score
            then (PerformanceAnalyzer.analyze_complexity convCode target_lang).complexity_score
              / (PerformanceAnalyzer.analyze_complexity origCode source_lang).complexity_score
            else 1))) :=
  compare_complexity_fail_iff (PerformanceAnalyzer.analyze_complexity origCode source_lang)
    (PerformanceAnalyzer.analyze_complexity convCode target_lang) source_lang target_lang

/-- C9: when the source file's language tag is none of `py`, `java`,
`js`, the structural strategy's element extractor returns the all-empty
element dict for the original file, and the cross-language comparison
(which every such file pair reaches) passes regardless of the converted
file. -/
theorem semantic_unrecognized_source_passes {α : Type}
    (parse : String → Except String α) (dump : α → String) (re : RegexFindall)
    (origSuffix origCode convSuffix convCode : String)
    (h : langOf origSuffix ≠ "py" ∧ langOf origSuffix ≠ "java" ∧ langOf origSuffix ≠ "js") :
    SemanticValidator.extract_structural_elements re origCode (langOf origSuffix)
      = ⟨[], [], [], [], []⟩
  ∧ (SemanticValidator.validate parse dump re origSuffix origCode convSuffix convCode).passed
      = true := by
  obtain ⟨hpy, hjava, hjs⟩ := h
  have hext : SemanticValidator.extract_structural_elements re origCode (langOf origSuffix)
      = ⟨[], [], [], [], []⟩ := by
    unfold SemanticValidator.extract_structural_elements
    simp [hpy, hjava, hjs]
  refine ⟨hext, ?_⟩
  unfold SemanticValidator.validate
  rw [if_neg (by intro hcc; exact hpy hcc.2)]
  unfold SemanticValidator.validate_cross_language
  rw [hext]
  unfold SemanticValidator.compare_structural_elements
  simp

/-- Witness for `semantic_unrecognized_source_passes`: a Ruby source
file against an arbitrary converted file. -/
theorem semantic_unrecognized_source_passes_check :
    SemanticValidator.extract_structural_elements ⟨fun _ _ => []⟩ "def greet; end"
        (langOf ".rb") = ⟨[], [], [], [], []⟩
  ∧ (SemanticValidator.validate (fun _ => Except.ok ()) (fun _ => "") ⟨fun _ _ => []⟩
      ".rb" "def greet; end" ".py" "def greet(): pass").passed = true :=
  semantic_unrecognized_source_passes (fun _ => Except.ok ()) (fun _ => "") ⟨fun _ _ => []⟩
    ".rb" "def greet; end" ".py" "def greet(): pass" (by decide)

/-- The structural comparison is reflexive on equal element dicts: every
fail condition pairs a non-empty original list with an empty converted
list, which equal dicts cannot satisfy. -/
theorem compare_structural_elements_refl (e : StructuralElements) (l : String) :
    (SemanticValidator.compare_structural_elements e e l l).1 = true := by
  unfold SemanticValidator.compare_structural_elements
  rw [if_neg (fun h => h.1 h.2), if_neg (fun h => h.1 h.2), if_neg (fun h => h.1 h.2.1)]

/-- C4 counterexample: the structural strategy is not reflexive on every
file. A `.py` file whose content fails to parse — here the oracle maps
the content "def" to a parse error, exactly as Python's `ast.parse`
raises `SyntaxError` on it — is routed to the same-language AST path,
whose exception arm returns `passed = false` even against an identical
copy of the file. -/
theorem semantic_reflexivity_counterexample :
    (SemanticValidator.validate
      (fun s => if s = "def" then Except.error "SyntaxError: invalid syntax"
                else Except.ok ())
      (fun _ => "Module([], [])") ⟨fun _ _ => []⟩ ".py" "def" ".py" "def").passed = false := by
  decide

/-- C4 (amended): the structural strategy is reflexive on every file
whose same-language path succeeds — a `py`-tagged file whose content
parses passes via identical AST dumps, and a file with any other
language tag always passes via equal structural-element lists; only a
`py` file whose content fails to parse yields a failing verdict. -/
theorem semantic_reflexive_amended {α : Type} (parse : String → Except String α)
    (dump : α → String) (re : RegexFindall) (suffix code : String) :
    (langOf suffix = "py" → ∀ a, parse code = Except.ok a →
      (SemanticValidator.validate parse dump re suffix code suffix code).passed = true)
  ∧ (langOf suffix ≠ "py" →
      (SemanticValidator.validate parse dump re suffix code suffix code).passed = true) := by
  constructor
  · intro hpy a hok
    unfold SemanticValidator.validate
    rw [if_pos ⟨rfl, hpy⟩]
    unfold SemanticValidator.validate_python_to_python
    rw [hok]
    simp
  · intro hpy
    unfold SemanticValidator.validate
    rw [if_neg (fun hcc => hpy hcc.2)]
    exact compare_structural_elements_refl _ _

/-- Witness for `semantic_reflexive_amended`: a parsable Python file and
a Java file, each validated against an identical copy of itself. -/
theorem semantic_reflexive_amended_check :
    (SemanticValidator.validate (fun _ => Except.ok ()) (fun _ => "Module([], [])")
        ⟨fun _ _ => []⟩ ".py" "x = 1" ".py" "x = 1").passed = true
  ∧ (SemanticValidator.validate (fun _ => Except.ok ()) (fun _ => "Module([], [])")
        ⟨fun _ _ => []⟩ ".java" "class A" ".java" "class A").passed = true :=
  ⟨(semantic_reflexive_amended (fun _ => Except.ok ()) (fun _ => "Module([], [])")
      ⟨fun _ _ => []⟩ ".py" "x = 1").1 (by decide) () rfl,
   (semantic_reflexive_amended (fun _ => Except.ok ()) (fun _ => "Module([], [])")
      ⟨fun _ _ => []⟩ ".java" "class A").2 (by decide)⟩

/-- Two segments' byte spans do not intersect. -/
def SegSpanDisjoint (a b : Segment) : Prop :=
  a.end_byte ≤ b.start_byte ∨ b.end_byte ≤ a.start_byte

/-- One segment's byte span contains the other's. -/
def SegSpanNested (a b : Segment) : Prop :=
  (a.start_byte ≤ b.start_byte ∧ b.end_byte ≤ a.end_byte)
  ∨ (b.start_byte ≤ a.start_byte ∧ a.end_byte ≤ b.end_byte)

instance (a b : Segment) : Decidable (SegSpanDisjoint a b) := by
  unfold SegSpanDisjoint
  infer_instance

instance (a b : Segment) : Decidable (SegSpanNested a b) := by
  unfold SegSpanNested
  infer_instance

mutual
/-- Every segment the walk emits from a well-formed node lies within
that node's byte span. -/
theorem walkSegments_within (code language : String) :
    ∀ (t : TSNode), nodeWF t = true →
      ∀ s ∈ walkSegments code language t,
        t.start_byte ≤ s.start_byte ∧ s.end_byte ≤ t.end_byte
  | .mk t sb eb sr er f cs, h, s, hs => by
    simp only [nodeWF, Bool.and_eq_true, decide_eq_true_eq] at h
    obtain ⟨⟨⟨h1, h2⟩, h3⟩, h4⟩ := h
    rw [walkSegments] at hs
    rcases List.mem_append.mp hs with hmem | hmem
    · by_cases htgt : (segmentTargetTypes language).contains t = true
      · rw [if_pos htgt] at hmem
        rcases List.mem_singleton.mp hmem with rfl
        exact ⟨Nat.le_refl _, Nat.le_refl _⟩
      · rw [if_neg htgt] at hmem
        simp at hmem
    · exact walkSegmentsList_within code language sb eb cs h2 h4 s hmem
/-- List form of `walkSegments_within`: children bounded by `[lo, hi]`
emit segments bounded by `[lo, hi]`. -/
theorem walkSegmentsList_within (code language : String) :
    ∀ (lo hi : Nat) (cs : TSNodeList), listWithin lo hi cs = true → listWF cs = true →
      ∀ s ∈ walkSegmentsList code language cs, lo ≤ s.start_byte ∧ s.end_byte ≤ hi
  | lo, hi, .nil, _, _, s, hs => by simp [walkSegmentsList] at hs
  | lo, hi, .cons c cs, hw, hl, s, hs => by
    simp only [listWithin, Bool.and_eq_true, decide_eq_true_eq] at hw
    simp only [listWF, Bool.and_eq_true] at hl
    obtain ⟨⟨hw1, hw2⟩, hw3⟩ := hw
    rw [walkSegmentsList] at hs
    rcases List.mem_append.mp hs with hmem | hmem
    · have hb := walkSegments_within code language c hl.1 s hmem
      exact ⟨Nat.le_trans hw1 hb.1, Nat.le_trans hb.2 hw2⟩
    · exact walkSegmentsList_within code language lo hi cs hw3 hl.2 s hmem
end

/-- Segments emitted from a sibling list that starts at or after byte
`e` all start at or after `e`. -/
theorem walkSegmentsList_allAfter (code language : String) :
    ∀ (e : Nat) (cs : TSNodeList), listAllAfter e cs = true → listWF cs = true →
      ∀ s ∈ walkSegmentsList code language cs, e ≤ s.start_byte
  | e, .nil, _, _, s, hs => by simp [walkSegmentsList] at hs
  | e, .cons c cs, ha, hl, s, hs => by
    simp only [listAllAfter, Bool.and_eq_true, decide_eq_true_eq] at ha
    simp only [listWF, Bool.and_eq_true] at hl
    rw [walkSegmentsList] at hs
    rcases List.mem_append.mp hs with hmem | hmem
    · exact Nat.le_trans ha.1 (walkSegments_within code language c hl.1 s hmem).1
    · exact walkSegmentsList_allAfter code language e cs ha.2 hl.2 s hmem

mutual
/-- Any two segments the walk emits from one well-formed node have
byte spans that are either disjoint or nested. -/
theorem walkSegments_pairwise (code language : String) :
    ∀ (t : TSNode), nodeWF t = true →
      ∀ a ∈ walkSegments code language t, ∀ b ∈ walkSegments code language t,
        SegSpanDisjoint a b ∨ SegSpanNested a b
  | .mk t sb eb sr er f cs, h, a, ha, b, hb => by
    simp only [nodeWF, Bool.and_eq_true, decide_eq_true_eq] at h
    obtain ⟨⟨⟨h1, h2⟩, h3⟩, h4⟩ := h
    rw [walkSegments] at ha hb
    rcases List.mem_append.mp ha with hma | hma <;> rcases List.mem_append.mp hb with hmb | hmb
    · by_cases htgt : (segmentTargetTypes language).contains t = true
      · rw [if_pos htgt] at hma hmb
        rcases List.mem_singleton.mp hma with rfl
        rcases List.mem_singleton.mp hmb with rfl
        exact Or.inr (Or.inl ⟨Nat.le_refl _, Nat.le_refl _⟩)
      · rw [if_neg htgt] at hma
        simp at hma
    · by_cases htgt : (segmentTargetTypes language).contains t = true
      · rw [if_pos htgt] at hma
        rcases List.mem_singleton.mp hma with rfl
        have hbb := walkSegmentsList_within code language sb eb cs h2 h4 b hmb
        exact Or.inr (Or.inl ⟨hbb.1, hbb.2⟩)
      · rw [if_neg htgt] at hma
        simp at hma
    · by_cases htgt : (segmentTargetTypes language).contains t = true
      · rw [if_pos htgt] at hmb
        rcases List.mem_singleton.mp hmb with rfl
        have haa := walkSegmentsList_within code language sb eb cs h2 h4 a hma
        exact Or.inr (Or.inr ⟨haa.1, haa.2⟩)
      · rw [if_neg htgt] at hmb
        simp at hmb
    · exact walkSegmentsList_pairwise code language cs h3 h4 a hma b hmb
/-- List form of `walkSegments_pairwise`: sorted, mutually disjoint,
well-formed siblings emit pairwise disjoint-or-nested segments. -/
theorem walkSegmentsList_pairwise (code language : String) :
    ∀ (cs : TSNodeList), listSorted cs = true → listWF cs = true →
      ∀ a ∈ walkSegmentsList code language cs, ∀ b ∈ walkSegmentsList code language cs,
        SegSpanDisjoint a b ∨ SegSpanNested a b
  | .nil, _, _, a, ha, b, hb => by simp [walkSegmentsList] at ha
  | .cons c cs, hsort, hl, a, ha, b, hb => by
    simp only [listSorted, Bool.and_eq_true] at hsort
    simp only [listWF, Bool.and_eq_true] at hl
    rw [walkSegmentsList] at ha hb
    rcases List.mem_append.mp ha with hma | hma <;> rcases List.mem_append.mp hb with hmb | hmb
    · exact walkSegments_pairwise code language c hl.1 a hma b hmb
    · have hA := walkSegments_within code language c hl.1 a hma
      have hB := walkSegmentsList_allAfter code language c.end_byte cs hsort.1 hl.2 b hmb
      exact Or.inl (Or.inl (Nat.le_trans hA.2 hB))
    · have hB := walkSegments_within code language c hl.1 b hmb
      have hA := walkSegmentsList_allAfter code language c.end_byte cs hsort.1 hl.2 a hma
      exact Or.inl (Or.inr (Nat.le_trans hB.2 hA))
    · exact walkSegmentsList_pairwise code language cs hsort.2 hl.2 a hma b hmb
end

mutual
/-- Every emitted segment's `code` field is exactly the byte slice of
the file content at the segment's span. -/
theorem walkSegments_code_slice (code language : String) :
    ∀ (t : TSNode), ∀ s ∈ walkSegments code language t,
      s.code = byteSlice code s.start_byte s.end_byte
  | .mk t sb eb sr er f cs, s, hs => by
    rw [walkSegments] at hs
    rcases List.mem_append.mp hs with hmem | hmem
    · by_cases htgt : (segmentTargetTypes language).contains t = true
      · rw [if_pos htgt] at hmem
        rcases List.mem_singleton.mp hmem with rfl
        rfl
      · rw [if_neg htgt] at hmem
        simp at hmem
    · exact walkSegmentsList_code_slice code language cs s hmem
/-- List form of `walkSegments_code_slice`. -/
theorem walkSegmentsList_code_slice (code language : String) :
    ∀ (cs : TSNodeList), ∀ s ∈ walkSegmentsList code language cs,
      s.code = byteSlice code s.start_byte s.end_byte
  | .nil, s, hs => by simp [walkSegmentsList] at hs
  | .cons c cs, s, hs => by
    rw [walkSegmentsList] at hs
    rcases List.mem_append.mp hs with hmem | hmem
    · exact walkSegments_code_slice code language c s hmem
    · exact walkSegmentsList_code_slice code language cs s hmem
end

/-- A tiny Python source file: a class with one method (38 bytes). -/
def pyExampleCode : String := "class A:\n    def m(self):\n        pass"

/-- The tree-sitter parse tree of `pyExampleCode` under the Python
grammar: a `module` containing a `class_definition` whose body `block`
holds a nested `function_definition`; name identifiers carry the
`name` field label. -/
def pyExampleTree : TSNode :=
  .mk "module" 0 38 0 2 none (.cons
    (.mk "class_definition" 0 38 0 2 none (.cons
      (.mk "identifier" 6 7 0 0 (some "name") .nil) (.cons
      (.mk "block" 13 38 1 2 (some "body") (.cons
        (.mk "function_definition" 13 38 1 2 none (.cons
          (.mk "identifier" 17 18 1 1 (some "name") .nil) .nil)) .nil)) .nil))) .nil)

/-- C2 counterexample: the grammar-driven walk recurses into matched
nodes, so a method nested in a class yields two segments whose byte
spans overlap — the `class_definition` span `[0, 38)` and the
`function_definition` span `[13, 38)` intersect while starting at
different bytes, refuting pairwise non-overlap even on this
well-formed tree. -/
theorem segments_overlap_counterexample :
    nodeWF pyExampleTree = true
  ∧ (extract_segments_from_tree pyExampleCode "python" pyExampleTree).length = 2
  ∧ ((extract_segments_from_tree pyExampleCode "python" pyExampleTree).getD 0
      default).node_type = "class_definition"
  ∧ ((extract_segments_from_tree pyExampleCode "python" pyExampleTree).getD 1
      default).node_type = "function_definition"
  ∧ ((extract_segments_from_tree pyExampleCode "python" pyExampleTree).getD 0
      default).start_byte
      ≠ ((extract_segments_from_tree pyExampleCode "python" pyExampleTree).getD 1
      default).start_byte
  ∧ ¬ SegSpanDisjoint
      ((extract_segments_from_tree pyExampleCode "python" pyExampleTree).getD 0 default)
      ((extract_segments_from_tree pyExampleCode "python" pyExampleTree).getD 1 default) := by
  decide

/-- C2 (amended): for a well-formed tree, any two segments produced by
the grammar-driven walk have byte spans that are pairwise
non-overlapping **or nested** (one span contains the other), and every
segment's `code` field is exactly the slice of the file content at its
byte span. -/
theorem segments_disjoint_or_nested (code language : String) (root : TSNode)
    (h : nodeWF root = true) (a : Segment)
    (ha : a ∈ extract_segments_from_tree code language root) (b : Segment)
    (hb : b ∈ extract_segments_from_tree code language root) :
    (SegSpanDisjoint a b ∨ SegSpanNested a b)
  ∧ a.code = byteSlice code a.start_byte a.end_byte :=
  ⟨walkSegments_pairwise code language root h a ha b hb,
   walkSegments_code_slice code language root a ha⟩

/-- Witness for `segments_disjoint_or_nested`: the class segment and
the method segment of the example tree are nested, and the class
segment's code is the slice at its span. -/
theorem segments_disjoint_or_nested_check :
    (SegSpanDisjoint
        ((extract_segments_from_tree pyExampleCode "python" pyExampleTree).getD 0 default)
        ((extract_segments_from_tree pyExampleCode "python" pyExampleTree).getD 1 default)
      ∨ SegSpanNested
        ((extract_segments_from_tree pyExampleCode "python" pyExampleTree).getD 0 default)
        ((extract_segments_from_tree pyExampleCode "python" pyExampleTree).getD 1 default))
  ∧ ((extract_segments_from_tree pyExampleCode "python" pyExampleTree).getD 0 default).code
      = byteSlice pyExampleCode
        ((extract_segments_from_tree pyExampleCode "python" pyExampleTree).getD 0
          default).start_byte
        ((extract_segments_from_tree pyExampleCode "python" pyExampleTree).getD 0
          default).end_byte :=
  segments_disjoint_or_nested pyExampleCode "python" pyExampleTree (by decide)
    ((extract_segments_from_tree pyExampleCode "python" pyExampleTree).getD 0 default)
    (by decide)
    ((extract_segments_from_tree pyExampleCode "python" pyExampleTree).getD 1 default)
    (by decide)

mutual
/-- Every snippet span the tree-path context walk collects from a
well-formed tree both starts and ends strictly before the byte offset. -/
theorem contextSnips_before (language : String) (segment_start : Nat) :
    ∀ (t : TSNode), nodeWF t = true →
      ∀ p ∈ contextSnips language segment_start t,
        p.1 < segment_start ∧ p.2 < segment_start
  | .mk t sb eb sr er f cs, h, p, hp => by
    simp only [nodeWF, Bool.and_eq_true, decide_eq_true_eq] at h
    obtain ⟨⟨⟨h1, h2⟩, h3⟩, h4⟩ := h
    rw [contextSnips] at hp
    rcases List.mem_append.mp hp with hmem | hmem
    · by_cases hcond : ((contextTypes language).contains t
          && decide (eb < segment_start)) = true
      · rw [if_pos hcond] at hmem
        rcases List.mem_singleton.mp hmem with rfl
        simp only [Bool.and_eq_true, decide_eq_true_eq] at hcond
        exact ⟨Nat.lt_of_le_of_lt h1 hcond.2, hcond.2⟩
      · rw [if_neg hcond] at hmem
        simp at hmem
    · exact contextSnipsList_before language segment_start cs h4 p hmem
/-- List form of `contextSnips_before`. -/
theorem contextSnipsList_before (language : String) (segment_start : Nat) :
    ∀ (cs : TSNodeList), listWF cs = true →
      ∀ p ∈ contextSnipsList language segment_start cs,
        p.1 < segment_start ∧ p.2 < segment_start
  | .nil, _, p, hp => by simp [contextSnipsList] at hp
  | .cons c cs, hl, p, hp => by
    simp only [listWF, Bool.and_eq_true] at hl
    rw [contextSnipsList] at hp
    rcases List.mem_append.mp hp with hmem | hmem
    · exact contextSnips_before language segment_start c hl.1 p hmem
    · exact contextSnipsList_before language segment_start cs hl.2 p hmem
end

/-- Every line range the Python AST fallback collects ends (in 1-based
line numbers, hence every contributed 0-based line index lies) strictly
below the query value — the query is compared against line numbers on
this path. -/
theorem pyContextLineRanges_before (segment_start : Nat) (nodes : List PyAstNode) :
    ∀ p ∈ pyContextLineRanges segment_start nodes, p.2 < segment_start := by
  intro p hp
  unfold pyContextLineRanges at hp
  rcases List.mem_map.mp hp with ⟨n, hn, rfl⟩
  have hpred := (List.mem_filter.mp hn).2
  simp only [Bool.and_eq_true] at hpred
  rcases hel : n.end_lineno with _ | el
  · rw [hel] at hpred
    simp at hpred
  · rw [hel] at hpred
    simp only [decide_eq_true_eq] at hpred
    simpa [hel] using hpred.2

/-- Every match the JavaScript regex fallback keeps starts strictly
before the byte offset. -/
theorem jsKeptMatches_before (segment_start : Nat)
    (importMatches funcMatches : List (Nat × String)) :
    ∀ m ∈ jsKeptMatches segment_start importMatches funcMatches, m.1 < segment_start := by
  intro m hm
  unfold jsKeptMatches at hm
  rcases List.mem_append.mp hm with h | h <;>
    simpa using (List.mem_filter.mp h).2

/-- The universal fallback keeps at most the first `segment_start`
lines of the file — the query is a line count on this path. -/
theorem universalContextLines_length_le (code : String) (segment_start : Nat) :
    (universalContextLines code segment_start).length ≤ segment_start := by
  unfold universalContextLines
  rw [List.length_take]
  exact Nat.min_le_left _ _

/-- A six-line file in a language with no dedicated context extractor. -/
def rbExampleCode : String := "aa\nbb\ncc\ndd\nee\nff"

/-- C3 counterexample: with a byte offset — which is what the pipeline
passes (`segment["start_byte"]`) — the universal line-based fallback
returns text from at or after the offset. Querying the unsupported
language `ruby` at byte offset 4 of a 17-byte file returns the first
four *lines*, including the text `dd`, although no byte before offset
4 in the file is even the character `d`. -/
theorem context_byte_offset_counterexample :
    (extract_context "ruby" rbExampleCode 4 (.err "unsupported") [] [] []).context_code
      = "aa\nbb\ncc\ndd"
  ∧ (∀ i, i < 4 → rbExampleCode.data.getD i ' ' ≠ 'd')
  ∧ strContains
      (extract_context "ruby" rbExampleCode 4 (.err "unsupported") [] [] []).context_code
      "dd" = true := by
  decide

/-- C3 (amended): each strategy path returns only text lying strictly
before the query value *in that path's own unit* — byte offsets on the
grammar-driven tree path (for well-formed trees) and on the JavaScript
regex fallback, but line numbers on the Python AST fallback and the
universal line-based fallback, which may reach at or beyond the query
taken as a byte offset. -/
theorem context_before_offset_per_path (code language : String) (segment_start : Nat)
    (root : TSNode) (hwf : nodeWF root = true) (pyNodes : List PyAstNode)
    (importMatches funcMatches : List (Nat × String)) :
    (∀ p ∈ contextSnips language segment_start root,
        p.1 < segment_start ∧ p.2 < segment_start)
  ∧ (∀ p ∈ pyContextLineRanges segment_start pyNodes, p.2 < segment_start)
  ∧ (∀ m ∈ jsKeptMatches segment_start importMatches funcMatches, m.1 < segment_start)
  ∧ (universalContextLines code segment_start).length ≤ segment_start :=
  ⟨contextSnips_before language segment_start root hwf,
   pyContextLineRanges_before segment_start pyNodes,
   jsKeptMatches_before segment_start importMatches funcMatches,
   universalContextLines_length_le code segment_start⟩

/-- Witness for `context_before_offset_per_path`: the tree-path spans
collected from the example tree at offset 50 all lie before byte 50,
and the universal fallback at query 4 keeps at most 4 lines. -/
theorem context_before_offset_per_path_check :
    (∀ p ∈ contextSnips "python" 50 pyExampleTree, p.1 < 50 ∧ p.2 < 50)
  ∧ (universalContextLines rbExampleCode 4).length ≤ 4 :=
  ⟨(context_before_offset_per_path rbExampleCode "python" 50 pyExampleTree
      (by decide) [] [] []).1,
   (context_before_offset_per_path rbExampleCode "ruby" 4 pyExampleTree
      (by decide) [] [] []).2.2.2⟩
